import Mathlib

/-!
Verification of the network-graph data model and operation layer of the
`kiara_plugin.tropy` plugin, via a shallow embedding of the Python source
into Lean.

Tables are modelled column-oriented: a table is a list of
`(column name, cell values)` pairs in column order.  Cell values are kept
polymorphic (`α` with a linear order, standing in for the ordering used by
the relational engine); operation-layer models instantiate them at
`String`.  Fallible Python code (raised exceptions) is modelled with
`Except String`, the error payload being the exception message.
-/

namespace Tropy

/-- Decidable equality of `Except` results (needed to evaluate concrete
runs of the fallible models). -/
instance exceptDecidableEq {ε α : Type} [DecidableEq ε] [DecidableEq α] :
    DecidableEq (Except ε α)
  | .ok a, .ok b =>
    if h : a = b then isTrue (by rw [h]) else isFalse (by intro c; cases c; exact h rfl)
  | .ok _, .error _ => isFalse (by intro c; cases c)
  | .error _, .ok _ => isFalse (by intro c; cases c)
  | .error e, .error f =>
    if h : e = f then isTrue (by rw [h]) else isFalse (by intro c; cases c; exact h rfl)

/-- The four graph-shape variants of `kiara_plugin.tropy.defaults.GraphType`. -/
inductive GraphType where
  | directed
  | undirected
  | directed_multi
  | undirected_multi
  deriving DecidableEq, Repr

/-- `GraphType.value`: the string payload of each enum member. -/
def GraphType.value : GraphType → String
  | .directed => "directed"
  | .undirected => "undirected"
  | .directed_multi => "directed_multi"
  | .undirected_multi => "undirected_multi"

/-- The `GraphType(str)` enum constructor: `some` on the four member strings,
`none` (a raised `ValueError`) otherwise. -/
def GraphType.ofString? (s : String) : Option GraphType :=
  if s = "directed" then some .directed
  else if s = "undirected" then some .undirected
  else if s = "directed_multi" then some .directed_multi
  else if s = "undirected_multi" then some .undirected_multi
  else none

/-- A column-oriented table (the model of a `KiaraTable`/arrow table):
columns in order, each column a name paired with its cell values. -/
structure KTable (α : Type) where
  cols : List (String × List α)
  deriving DecidableEq, Repr

/-- `column_names` of a table. -/
def columnNames {α : Type} (t : KTable α) : List String :=
  t.cols.map Prod.fst

/-- Look up a column's values by name (first matching column). -/
def getCol {α : Type} (t : KTable α) (c : String) : Option (List α) :=
  match t.cols.find? (fun p => p.1 = c) with
  | none => none
  | some p => some p.2

/-- The values of column `c`, or `[]` when absent. -/
def colValues {α : Type} (t : KTable α) (c : String) : List α :=
  (getCol t c).getD []

/-- The model of `kiara_plugin.tropy.models.NetworkGraph`: graph-shape
metadata (stored as its string value, as the pydantic model does), the three
column-name bindings, and exactly the two tables `edges` and `nodes`. -/
structure NetworkGraph (α : Type) where
  graph_type : String
  source_column_name : String
  target_column_name : String
  node_id_column_name : String
  edges : KTable α
  nodes : KTable α
  deriving DecidableEq, Repr

/-- The message of the exception raised by `create_from_tables` when table
`tbl` lacks column `col` (`models.py`, lines 93-100 and 122-126). -/
def schemaErrMsg (tbl col : String) (cols : List String) : String :=
  "Invalid 'network_data' value: '" ++ tbl ++ "' table does not contain a '"
    ++ col ++ "' column. Available columns: " ++ String.intercalate ", " cols ++ "."

/-- The node table derived when no nodes table is supplied
(`models.py`, lines 102-120): the duckdb query
`SELECT DISTINCT … UNION … ORDER BY` over the source and target columns,
i.e. the distinct values of the two columns in ascending order. -/
def derivedNodeValues {α : Type} [LinearOrder α]
    (edges_table : KTable α) (source_column_name target_column_name : String) : List α :=
  List.insertionSort (· ≤ ·)
    ((colValues edges_table source_column_name ++ colValues edges_table target_column_name).dedup)

/-- `NetworkGraph.create_from_tables` (`models.py`, lines 78-136): validate
the presence of the source/target columns in the edges table, derive the
nodes table when none is supplied, validate the node-id column otherwise,
and assemble the record. -/
def create_from_tables {α : Type} [LinearOrder α] (graph_type : GraphType)
    (edges_table : KTable α) (nodes_table : Option (KTable α))
    (source_column_name target_column_name node_id_column_name : String) :
    Except String (NetworkGraph α) :=
  let edges_columns := columnNames edges_table
  if source_column_name ∈ edges_columns then
    if target_column_name ∈ edges_columns then
      match nodes_table with
      | none =>
        let nodes : KTable α :=
          ⟨[(node_id_column_name,
             derivedNodeValues edges_table source_column_name target_column_name)]⟩
        .ok ⟨graph_type.value, source_column_name, target_column_name,
             node_id_column_name, edges_table, nodes⟩
      | some nt =>
        if node_id_column_name ∈ columnNames nt then
          .ok ⟨graph_type.value, source_column_name, target_column_name,
               node_id_column_name, edges_table, nt⟩
        else .error (schemaErrMsg "nodes" node_id_column_name (columnNames nt))
    else .error (schemaErrMsg "edges" target_column_name edges_columns)
  else .error (schemaErrMsg "edges" source_column_name edges_columns)

/-- The graph-type classification chain of `create_from_networkx_graph`
(`models.py`, lines 151-160).  An input object is abstracted by its runtime
capabilities: `none` for an object that is not a networkx graph at all,
`some (directed, multi)` otherwise.  The `isinstance` chain of the source
translates to: `isinstance(g, MultiDiGraph)` iff directed and multi,
`isinstance(g, MultiGraph)` iff multi, `isinstance(g, DiGraph)` iff
directed, `isinstance(g, Graph)` for every networkx graph (reflecting the
networkx class hierarchy). -/
def classifyGraphObject : Option (Bool × Bool) → Except String GraphType
  | none => .error "Invalid graph type: <not a networkx graph>"
  | some (d, m) =>
    if d && m then .ok .directed_multi
    else if m then .ok .undirected_multi
    else if d then .ok .directed
    else .ok .undirected

/-! ### Weight merge strategies of `AssembleGraphFromTablesModule.process`
(`modules/create.py`, lines 282-344).  Edge rows are `(source, target)`
pairs, weighted rows carry an integer weight (the code applies `int(...)`
to every weight it reads).  Python dictionaries preserve insertion order,
modelled by order-preserving association lists. -/

/-- Association-list lookup (Python `dict[k]` / `k in dict`). -/
def alookup {κ β : Type} [DecidableEq κ] : List (κ × β) → κ → Option β
  | [], _ => none
  | (k', v') :: rest, k => if k' = k then some v' else alookup rest k

/-- Association-list insert-or-update preserving insertion order
(Python `dict[k] = v`). -/
def dictSet {κ β : Type} [DecidableEq κ] : List (κ × β) → κ → β → List (κ × β)
  | [], k, v => [(k, v)]
  | (k', v') :: rest, k, v =>
    if k' = k then (k, v) :: rest else (k', v') :: dictSet rest k v

/-- `collections.Counter` over a list: multiplicities keyed in
first-occurrence order. -/
def counter {κ : Type} [DecidableEq κ] (l : List κ) : List (κ × Int) :=
  l.foldl (fun acc k => dictSet acc k ((alookup acc k).getD 0 + 1)) []

/-- The inner `parallel_sum` helper (`create.py`, lines 282-289): per
`(source, target)` key, the sum of the integer weights, keys in
first-occurrence order. -/
def parallel_sum (assign_weight : List (String × String × Int)) :
    List ((String × String) × Int) :=
  assign_weight.foldl
    (fun empty item =>
      let k := (item.1, item.2.1)
      dictSet empty k ((alookup empty k).getD 0 + item.2.2))
    []

/-- The `"sum"` strategy with a weight column (`create.py`, lines 295-297). -/
def mergeSum (assign_weight : List (String × String × Int)) :
    List (String × String × Int) :=
  (parallel_sum assign_weight).map (fun kv => (kv.1.1, kv.1.2, kv.2))

/-- The `"mean"` strategy (`create.py`, lines 299-308): for each duplicate
key the code assigns `int(b) / int(v)` where `b` is the multiplicity from
the `Counter` and `v` the summed weight — i.e. count divided by sum.
Python float division is modelled by exact rational division. -/
def mergeMean (assign_weight : List (String × String × Int)) :
    List (String × String × ℚ) :=
  let empty := parallel_sum assign_weight
  let edge_count := assign_weight.map (fun item => (item.1, item.2.1))
  let weight_dict := counter edge_count
  let mean_dict := weight_dict.foldl
    (fun md ab =>
      empty.foldl
        (fun md kv => if ab.1 = kv.1 then dictSet md ab.1 ((ab.2 : ℚ) / (kv.2 : ℚ)) else md)
        md)
    []
  mean_dict.map (fun kv => (kv.1.1, kv.1.2, kv.2))

/-- The `"minimum"` strategy (`create.py`, lines 310-320): a first
occurrence installs the weight, after which the stored value is replaced
whenever it is `>=` the incoming weight. -/
def mergeMin (assign_weight : List (String × String × Int)) :
    List (String × String × Int) :=
  (assign_weight.foldl
    (fun empty item =>
      let k := (item.1, item.2.1)
      let w := item.2.2
      let empty1 := if (alookup empty k).isSome then empty else dictSet empty k w
      let cur := ((alookup empty1 k).getD w)
      if cur ≥ w then dictSet empty1 k w else empty1)
    []).map (fun kv => (kv.1.1, kv.1.2, kv.2))

/-- The `"maximum"` strategy (`create.py`, lines 322-332): symmetric to
`"minimum"` with the comparison `<=`. -/
def mergeMax (assign_weight : List (String × String × Int)) :
    List (String × String × Int) :=
  (assign_weight.foldl
    (fun empty item =>
      let k := (item.1, item.2.1)
      let w := item.2.2
      let empty1 := if (alookup empty k).isSome then empty else dictSet empty k w
      let cur := ((alookup empty1 k).getD w)
      if cur ≤ w then dictSet empty1 k w else empty1)
    []).map (fun kv => (kv.1.1, kv.1.2, kv.2))

/-- The `"sum"` strategy without a weight column (`create.py`, lines
334-339): every parallel edge contributes weight 1, so the merged weight is
the multiplicity from the `Counter`. -/
def mergeSumNoWeight (assign_weight : List (String × String)) :
    List (String × String × Int) :=
  (counter assign_weight).map (fun kv => (kv.1.1, kv.1.2, kv.2))

/-! ### The centrality modules of `modules/centrality.py`.  Their `process`
methods do not compute any graph measure: they attach `num_nodes` fresh
draws from numpy's process-wide random generator as the centrality column
(the networkx-based computation exists only as commented-out code).  The
hidden generator state is made explicit as an `rng` stream of rationals
(modelling the float draws of `np.random.rand`). -/

/-- Minimal model of the external `NetworkData` value the `centrality.py`
modules consume: node count, edge rows, and the computed per-node attribute
columns. -/
structure NetworkData where
  numNodes : Nat
  edgesRows : List (String × String)
  nodesAttrCols : List (String × List ℚ)
  deriving DecidableEq, Repr

/-- `DegreeRankingModule.process` (`centrality.py`, lines 98-150):
`random_centrality_data = pa.array(np.random.rand(num_nodes))` is attached
under the degree column name via `NetworkData.create_augmented`. -/
def degreeRankingProcess (weighted : Bool) (weight_column_name : String)
    (rng : List ℚ) (network_data : NetworkData) : NetworkData :=
  let random_centrality_data := rng.take network_data.numNodes
  let centrality_column_name :=
    if weighted then "_degree_weighted_" ++ weight_column_name else "_degree_unweighted"
  { network_data with
      nodesAttrCols :=
        network_data.nodesAttrCols ++ [(centrality_column_name, random_centrality_data)] }

/-- `Betweenness_Ranking.process` of `centrality.py` (lines 295-350): the
same random placeholder, attached under the betweenness column name. -/
def betweennessRankingProcess (weighted : Bool) (weight_column_name : String)
    (weight_meaning : Bool) (rng : List ℚ) (network_data : NetworkData) : NetworkData :=
  let random_centrality_data := rng.take network_data.numNodes
  let betweenness_column_name :=
    if weighted then
      "_betweenness_weighted_" ++ weight_column_name ++ "_" ++
        (if weight_meaning then "strength" else "shortest_path")
    else "_betweenness"
  { network_data with
      nodesAttrCols :=
        network_data.nodesAttrCols ++ [(betweenness_column_name, random_centrality_data)] }

/-! ### The in-memory graph object and the record/graph round trip.
Operation-layer models are monomorphic in `String` cells. -/

/-- Modelled from the spec: `DEFAULT_SOURCE_COLUMN_NAME` of
`kiara_plugin.tropy.defaults` (the constant is imported by `models.py` but
its definition is missing from the sources; §4.1 of the spec fixes the
default to `"source"`). -/
def DEFAULT_SOURCE_COLUMN_NAME : String := "source"

/-- Modelled from the spec: `DEFAULT_TARGET_COLUMN_NAME` of
`kiara_plugin.tropy.defaults` (definition missing from the sources; §4.1 of
the spec fixes the default to `"target"`). -/
def DEFAULT_TARGET_COLUMN_NAME : String := "target"

/-- Modelled from the spec: `DEFAULT_NODE_ID_COLUMN_NAME` of
`kiara_plugin.tropy.defaults` (definition missing from the sources; §4.1 of
the spec fixes the default to `"node_id"`). -/
def DEFAULT_NODE_ID_COLUMN_NAME : String := "node_id"

/-- An attribute dictionary of a networkx node or edge: insertion-ordered
keys to string cell values. -/
abbrev AttrRow := List (String × String)

/-- Model of an in-memory networkx graph object: shape capabilities plus
node and edge lists carrying attribute dictionaries. -/
structure GraphObj where
  directed : Bool
  multi : Bool
  nodes : List (String × AttrRow)
  edges : List (String × String × AttrRow)
  deriving DecidableEq, Repr

/-- First-seen union of the attribute keys of a list of attribute rows (the
schema-unification step of flattening attribute dictionaries into a
dataframe: new keys become new columns in order of appearance). -/
def unionKeys (rows : List AttrRow) : List String :=
  rows.foldl
    (fun acc row =>
      row.foldl (fun acc kv => if kv.1 ∈ acc then acc else acc ++ [kv.1]) acc)
    []

/-- `NetworkGraph.create_from_networkx_graph` (`models.py`, lines 138-179):
classify the graph object, flatten nodes into a table headed by the node-id
column (`reset_index`/`rename` puts it first), flatten edges via
`nx.to_pandas_edgelist` (endpoint columns first, then attribute columns in
order of appearance; endpoint names shadow same-named attributes), and
delegate to `create_from_tables` — with the literal column names
`"source"` and `"target"` and the default node-id name, NOT the
`source_column_name`/`target_column_name`/`node_id_column_name` arguments
of the function itself (lines 173-179 of the source).  Missing attribute
values (`NaN` cells of the dataframe) are modelled by `""`. -/
def create_from_networkx_graph (graph : GraphObj)
    (source_column_name : String := DEFAULT_SOURCE_COLUMN_NAME)
    (target_column_name : String := DEFAULT_TARGET_COLUMN_NAME)
    (node_id_column_name : String := DEFAULT_NODE_ID_COLUMN_NAME) :
    Except String (NetworkGraph String) :=
  match classifyGraphObject (some (graph.directed, graph.multi)) with
  | .error e => .error e
  | .ok graph_type =>
  let nodeAttrKeys := unionKeys (graph.nodes.map Prod.snd)
  let nodes_table : KTable String :=
    ⟨(node_id_column_name, graph.nodes.map Prod.fst) ::
      nodeAttrKeys.map (fun k =>
        (k, graph.nodes.map (fun n => ((alookup n.2 k).getD ""))))⟩
  let edgeAttrKeys := (unionKeys (graph.edges.map (fun e => e.2.2))).filter
    (fun k => k ≠ source_column_name ∧ k ≠ target_column_name)
  let edges_table : KTable String :=
    ⟨(source_column_name, graph.edges.map (fun e => e.1)) ::
      (target_column_name, graph.edges.map (fun e => e.2.1)) ::
      edgeAttrKeys.map (fun k =>
        (k, graph.edges.map (fun e => ((alookup e.2.2 k).getD ""))))⟩
  create_from_tables graph_type edges_table (some nodes_table)
    "source" "target" DEFAULT_NODE_ID_COLUMN_NAME

/-- `networkx.Graph.add_node(id, **attrs)`: a new node is appended, an
existing node has its attribute dictionary updated. -/
def addNode (nodes : List (String × AttrRow)) (id : String) (attrs : AttrRow) :
    List (String × AttrRow) :=
  if (alookup nodes id).isSome then
    nodes.map (fun n => if n.1 = id then (n.1, attrs.foldl (fun a kv => dictSet a kv.1 kv.2) n.2) else n)
  else nodes ++ [(id, attrs)]

/-- Whether an edge row keyed `(u, v)` matches an existing edge `(x, y)`:
exact for directed graphs, up to orientation for undirected ones. -/
def edgeKeyMatch (directed : Bool) (u v x y : String) : Bool :=
  (u = x ∧ v = y : Bool) || (!directed && (u = y ∧ v = x : Bool))

/-- `add_edge(u, v, **attrs)`: missing endpoints are added as attribute-less
nodes; on a multigraph the edge is appended, otherwise an existing parallel
edge has its attribute dictionary updated in place. -/
def addEdge (G : GraphObj) (u v : String) (attrs : AttrRow) : GraphObj :=
  let nodes1 := if (alookup G.nodes u).isSome then G.nodes else G.nodes ++ [(u, [])]
  let nodes2 := if (alookup nodes1 v).isSome then nodes1 else nodes1 ++ [(v, [])]
  let edges :=
    if G.multi then G.edges ++ [(u, v, attrs)]
    else if G.edges.any (fun e => edgeKeyMatch G.directed u v e.1 e.2.1) then
      G.edges.replaceF (fun e =>
        if edgeKeyMatch G.directed u v e.1 e.2.1 then
          some (e.1, e.2.1, attrs.foldl (fun a kv => dictSet a kv.1 kv.2) e.2.2)
        else none)
    else G.edges ++ [(u, v, attrs)]
  { G with nodes := nodes2, edges := edges }

/-- The rows of a table: row `i` maps each column name to its `i`-th cell
(`arrow_table.to_pandas()` iteration). -/
def tableRows (t : KTable String) : List AttrRow :=
  (List.range ((t.cols.head?.map (fun c => c.2.length)).getD 0)).map
    (fun i => t.cols.map (fun c => (c.1, c.2.getD i "")))

/-- `NetworkGraph.as_networkx_graph` (`models.py`, lines 235-272): pick the
graph class from `graph_type` (an unrecognized value raises, with the
source's literal un-interpolated message), add every node row as a node
keyed by the node-id column with the full row as attributes, then add every
edge row as an edge keyed by the source/target columns with the full row as
attributes. -/
def as_networkx_graph (g : NetworkGraph String) : Except String GraphObj := do
  let (directed, multi) ←
    if g.graph_type = GraphType.directed.value then pure (true, false)
    else if g.graph_type = GraphType.undirected.value then pure (false, false)
    else if g.graph_type = GraphType.directed_multi.value then pure (true, true)
    else if g.graph_type = GraphType.undirected_multi.value then pure (false, true)
    else throw "Invalid graph type: \x7bself.graph_type\x7d"
  let G0 : GraphObj := ⟨directed, multi, [], []⟩
  let G1 ← (tableRows g.nodes).foldlM
    (fun (G : GraphObj) row => do
      match alookup row g.node_id_column_name with
      | none => throw ("KeyError: " ++ g.node_id_column_name)
      | some id => pure { G with nodes := addNode G.nodes id row })
    G0
  (tableRows g.edges).foldlM
    (fun (G : GraphObj) row => do
      match alookup row g.source_column_name, alookup row g.target_column_name with
      | some u, some v => pure (addEdge G u v row)
      | _, _ => throw "KeyError: edge endpoint column")
    G1

/-- `nx.set_node_attributes(G, d, name)` for a dictionary `d` covering every
node: each node's attribute `name` is set to `f` of its id. -/
def setNodeAttrs (G : GraphObj) (f : String → String) (name : String) : GraphObj :=
  { G with nodes := G.nodes.map (fun n => (n.1, dictSet n.2 name (f n.1))) }

/-- `CutPointsList.process` (`modules/cutpoints_module.py`): project the
record to a graph object, compute the articulation points (delegated to
networkx, abstracted as the `articulation_points` argument), annotate every
node with `"Yes"`/`"No"` under `"Cut Point"`, and re-derive a record via
`create_from_networkx_graph` called with no column-name arguments. -/
def cutPointsProcess (articulation_points : GraphObj → List String)
    (g : NetworkGraph String) : Except String (List String × NetworkGraph String) := do
  let G ← as_networkx_graph g
  let cutpoints := articulation_points G
  let G' := setNodeAttrs G (fun n => if n ∈ cutpoints then "Yes" else "No") "Cut Point"
  let attribute_network ← create_from_networkx_graph G'
  pure (cutpoints, attribute_network)

/-- `G.remove_edges_from(list(nx.selfloop_edges(G)))`: drop every edge whose
two endpoints coincide. -/
def stripSelfLoops (G : GraphObj) : GraphObj :=
  { G with edges := G.edges.filter (fun e => e.1 ≠ e.2.1) }

/-- Removing one given edge occurrence from a graph object. -/
def eraseEdgeOnce (G : GraphObj) (e : String × String × AttrRow) : GraphObj :=
  { G with edges := G.edges.erase e }

/-- The shared shape of `Degree_Ranking.process`,
`Betweenness_Ranking.process` and `Eigenvector_Ranking.process` of
`modules/centrality_measures_module.py` after the record has been projected
to a graph object: strip all self-loop edges, delegate to the single
networkx measure (abstracted as the `measure` argument, returning the
per-node score), attach the scores as a node attribute, and re-derive a
record.  (These three read their weighted/weight-column inputs but never
use them in the live code.)  `Closeness_Ranking.process` additionally has a
live weighted branch and is modelled separately as
`closenessRankingOnGraph`. -/
def rankingOnGraph (measure : GraphObj → String → String) (score_name : String)
    (G : GraphObj) : Except String (NetworkGraph String) :=
  let G1 := stripSelfLoops G
  let G2 := setNodeAttrs G1 (measure G1) score_name
  create_from_networkx_graph G2

/-- The edge-weight relabelling of `Closeness_Ranking.process`
(`centrality_measures_module.py`, lines 307-309): the attribute
`weight_name` is copied onto the attribute `"weight"` of every edge that
carries it (`nx.get_edge_attributes` followed by `nx.set_edge_attributes`
inside the loop; the loop's triple unpacking of non-multigraph edge keys is
a latent defect of the source outside this claim's scope — with the default
empty weight name the dictionary is empty and the loop is a no-op, which
this model preserves because no edge carries an attribute named `""` in a
record with non-empty column names). -/
def copyWeightAttr (G : GraphObj) (weight_name : String) : GraphObj :=
  { G with edges := G.edges.map (fun e =>
      match alookup e.2.2 weight_name with
      | none => e
      | some w => (e.1, e.2.1, dictSet e.2.2 "weight" w)) }

/-- `Closeness_Ranking.process` (`centrality_measures_module.py`, lines
261-325) after the record has been projected: the unweighted closeness
(opaque `closeness`) is computed on the stripped projection `G1` and
attached under `"Closeness Score"`; but when `weighted_closeness` is set
(`wd`, default true), the code takes a FRESH projection of the record
(`graph = network_data.as_networkx_graph()`, line 306) WITHOUT self-loop
removal, relabels the weight attribute, and delegates
`nx.closeness_centrality(graph, weight="weight")` (opaque
`weighted_closeness`) on that unstripped graph, attaching the result under
`"Weighted Closeness Score"`.  The `weight_meaning` loop (lines 311-313)
performs a discarded comparison (`==`, not an assignment), so its only
effect is raising `KeyError` on an edge lacking a `"weight"` attribute
(its arithmetic on the discarded value is outside the string-cell model).
The auxiliary `network_result` dataframe is derived from the same two
measure dictionaries and is not modelled. -/
def closenessRankingOnGraph (closeness : GraphObj → String → String)
    (weighted_closeness : GraphObj → String → String)
    (wd wm : Bool) (weight_name : String) (G : GraphObj) :
    Except String (NetworkGraph String) :=
  let G1 := stripSelfLoops G
  let G2 := setNodeAttrs G1 (closeness G1) "Closeness Score"
  if wd then
    let graph := copyWeightAttr G weight_name
    if wm && !(graph.edges.all (fun e => (alookup e.2.2 "weight").isSome)) then
      .error "KeyError: weight"
    else
      create_from_networkx_graph
        (setNodeAttrs G2 (weighted_closeness graph) "Weighted Closeness Score")
  else
    create_from_networkx_graph G2

/-! ### Serialization (`data_types.py`, `NetworkGraphType.serialize`) and
deserialization (`modules/__init__.py`,
`DeserializeTableModule.to__python_object`).

The split marker `TABLE_COLUMN_SPLIT_MARKER` is imported from the external
`kiara_plugin.tabular` package; its value is not part of this repository's
sources, so every function below takes it as an explicit parameter `M`
(a character list).  The temporary directory created by `tempfile.mkdtemp`
is likewise a parameter `temp_f`.  The file store written by `store_array`
and read back through `pa.memory_map`/`pa.ipc.open_file` is modelled as an
association list from file path to the stored single-column table
(column name and cell values); writing to an existing path overwrites. -/

/-- Boolean prefix test on character lists (`str.startswith`). -/
def isPre : List Char → List Char → Bool
  | [], _ => true
  | _ :: _, [] => false
  | a :: as, b :: bs => a == b && isPre as bs

/-- Python `s.split(marker, maxsplit=1)` on character lists: `none` when
the marker does not occur in `s` (so `(splitFirst M s).isSome` is Python's
`marker in s`), otherwise the parts before and after the first occurrence. -/
def splitFirst (M : List Char) : List Char → Option (List Char × List Char)
  | [] => if M.isEmpty then some ([], []) else none
  | x :: xs =>
    if isPre M (x :: xs) then some ([], (x :: xs).drop M.length)
    else (splitFirst M xs).map fun p => (x :: p.1, p.2)

/-- The inline-json `graph_metadata` payload of the serialized form. -/
structure GraphMetadata where
  graph_type : String
  source_column_name : String
  target_column_name : String
  node_id_column_name : String
  deriving DecidableEq, Repr

/-- A chunk descriptor of the serialized mapping: a file-backed raw array
chunk, or the single inline-json metadata chunk. -/
inductive ChunkDesc where
  | file (path : String)
  | inlineJson (meta : GraphMetadata)
  deriving DecidableEq, Repr

/-- The file-backed column store: path to stored column (name, values). -/
abbrev FS (α : Type) := List (String × String × List α)

/-- The table-id validation loop of `serialize` (`data_types.py`, lines
54-61): a table id must be non-empty and must not contain the marker.  (The
source's second message lacks its closing quote; kept verbatim.) -/
def checkTableId (M : List Char) (table_id : String) : Except String Unit :=
  if table_id = "" then .error "table id must not be empty."
  else if (splitFirst M table_id.data).isSome then
    .error ("table id must not contain '" ++ String.mk M)
  else .ok ()

/-- The per-table column loop of `serialize` (`data_types.py`, lines
72-89): for each column (a non-empty name required), store the column at
`<temp_f>/<column_name>` — the path is built from the temporary directory
and the column name alone — and append a chunk-map entry keyed
`<table_id><MARKER><column_name>` pointing at that file. -/
def serializeCols {α : Type} (M : List Char) (temp_f table_id : String) :
    List (String × List α) → (List (String × ChunkDesc) × FS α) →
      Except String (List (String × ChunkDesc) × FS α)
  | [], acc => .ok acc
  | col :: rest, acc =>
    if col.1 = "" then
      .error ("column name for table '" ++ table_id ++ "' is empty. This is not allowed.")
    else
      serializeCols M temp_f table_id rest
        (acc.1 ++ [(⟨table_id.data ++ M ++ col.1.data⟩,
                    ChunkDesc.file (temp_f ++ "/" ++ col.1))],
         dictSet acc.2 (temp_f ++ "/" ++ col.1) (col.1, col.2))

/-- `NetworkGraphType.serialize` (`data_types.py`, lines 50-125): validate
the two table ids (`"edges"` and `"nodes"`, spec §6), store every column of
the edges table then of the nodes table, and append the `graph_metadata`
inline-json entry.  Returns the chunk map (in insertion order) together
with the final contents of the temporary directory. -/
def serialize {α : Type} (M : List Char) (temp_f : String) (g : NetworkGraph α) :
    Except String (List (String × ChunkDesc) × FS α) :=
  match checkTableId M "edges" with
  | .error e => .error e
  | .ok _ =>
  match checkTableId M "nodes" with
  | .error e => .error e
  | .ok _ =>
  match serializeCols M temp_f "edges" g.edges.cols ([], []) with
  | .error e => .error e
  | .ok acc1 =>
  match serializeCols M temp_f "nodes" g.nodes.cols acc1 with
  | .error e => .error e
  | .ok acc2 =>
    .ok (acc2.1 ++ [("graph_metadata",
          ChunkDesc.inlineJson ⟨g.graph_type, g.source_column_name,
            g.target_column_name, g.node_id_column_name⟩)],
         acc2.2)

/-- A key's serialized data as the deserializer sees it: the parsed
inline-json metadata, or a list of file chunks. -/
inductive SEntry where
  | json (meta : GraphMetadata)
  | files (paths : List String)
  deriving DecidableEq, Repr

/-- `get_number_of_chunks()` of an entry (an inline-json payload is one
chunk). -/
def chunkCount : SEntry → Nat
  | .json _ => 1
  | .files fl => fl.length

/-- View of a serialized chunk descriptor as input for the deserializer. -/
def toSEntry : ChunkDesc → SEntry
  | .file p => .files [p]
  | .inlineJson m => .json m

/-- Per-table column dictionaries accumulated by the deserializer
(`tables.setdefault(table_id, {})[column_name] = column`). -/
abbrev TMap (α : Type) := List (String × List (String × List α))

/-- `tables.setdefault(table_id, {})[column_name] = column`: a fresh table
id is appended, an existing one has its column dictionary updated in
place. -/
def tablesSet {α : Type} (tables : TMap α) (table_id column_name : String)
    (vals : List α) : TMap α :=
  match alookup tables table_id with
  | none => tables ++ [(table_id, [(column_name, vals)])]
  | some cols => dictSet tables table_id (dictSet cols column_name vals)

/-- The message of the exception raised on a key lacking the split marker
(`modules/__init__.py`, lines 59-62). -/
def invalidKeyMsg (M : List Char) (k : String) : String :=
  "Invalid serialized 'network_graph' data, key must contain '" ++
    String.mk M ++ "': " ++ k

/-- One iteration of the key loop of `to__python_object`
(`modules/__init__.py`, lines 54-78): `graph_metadata` is skipped (the
dictionary is returned unchanged); a key without the marker raises; the
key splits on the first marker occurrence into table id and column name;
`assert chunks.get_number_of_chunks() == 1` rejects multi-chunk columns;
the single chunk file is loaded and its column (looked up by the parsed
column name) is put into the per-table dictionary. -/
def deserStep {α : Type} (M : List Char) (fs : FS α) (k : String) (e : SEntry)
    (tables : TMap α) : Except String (TMap α) :=
  if k = "graph_metadata" then .ok tables
  else
    match splitFirst M k.data with
    | none => .error (invalidKeyMsg M k)
    | some tc =>
      if chunkCount e = 1 then
        match e with
        | .json _ => .error "pyarrow: not a feather file"
        | .files fl =>
          match fl.head? with
          | none => .error "AssertionError: len(files) == 1"
          | some file =>
            match alookup fs file with
            | none => .error ("FileNotFoundError: " ++ file)
            | some stored =>
              if stored.1 = (⟨tc.2⟩ : String) then
                .ok (tablesSet tables ⟨tc.1⟩ ⟨tc.2⟩ stored.2)
              else .error ("KeyError: column " ++ (⟨tc.2⟩ : String))
      else .error "AssertionError: chunks.get_number_of_chunks() == 1"

/-- The key loop of `to__python_object`: fold `deserStep` over the entries,
propagating the first raised exception. -/
def deserLoop {α : Type} (M : List Char) (fs : FS α) :
    List (String × SEntry) → TMap α → Except String (TMap α)
  | [], tables => .ok tables
  | (k, e) :: rest, tables =>
    match deserStep M fs k e tables with
    | .error er => .error er
    | .ok tables' => deserLoop M fs rest tables'

/-- `DeserializeTableModule.to__python_object` (`modules/__init__.py`,
lines 37-91): read and parse the `graph_metadata` chunk first, run the key
loop, then rebuild the record via `create_from_tables` using the recovered
bindings (a missing or empty `nodes` dictionary is passed as no nodes
table, triggering the derivation). -/
def to__python_object {α : Type} [LinearOrder α] (M : List Char)
    (entries : List (String × SEntry)) (fs : FS α) :
    Except String (NetworkGraph α) :=
  match alookup entries "graph_metadata" with
  | none => .error "KeyError: graph_metadata"
  | some (.files _) => .error "orjson: invalid json"
  | some (.json meta) =>
    match GraphType.ofString? meta.graph_type with
    | none => .error ("ValueError: '" ++ meta.graph_type ++ "' is not a valid GraphType")
    | some graph_type =>
      match deserLoop M fs entries [] with
      | .error e => .error e
      | .ok tables =>
        match alookup tables "edges" with
        | none => .error "KeyError: edges"
        | some edges_cols =>
          let nodes_table : Option (KTable α) :=
            match alookup tables "nodes" with
            | none => none
            | some nodes_cols =>
              if nodes_cols.isEmpty then none else some ⟨nodes_cols⟩
          create_from_tables graph_type ⟨edges_cols⟩ nodes_table
            meta.source_column_name meta.target_column_name meta.node_id_column_name

/-- `deserialize(serialize(g))`: serialize, hand the chunk map and the file
store to the deserializer. -/
def roundtrip {α : Type} [LinearOrder α] (M : List Char) (temp_f : String)
    (g : NetworkGraph α) : Except String (NetworkGraph α) :=
  match serialize M temp_f g with
  | .error e => .error e
  | .ok cmfs =>
    to__python_object M (cmfs.1.map (fun kc => (kc.1, toSEntry kc.2))) cmfs.2

/-! ### Association-list and marker lemmas. -/

/-- The condition on the marker and a table id under which splitting a
serialized key recovers the table id and the column name: the marker is
non-empty and has no occurrence of itself starting inside `tbl ++ M` before
the position `|tbl|`. -/
def markerOk (M : List Char) (tbl : String) : Prop :=
  M ≠ [] ∧ ∀ i < tbl.data.length, isPre M ((tbl.data ++ M).drop i) = false

instance markerOk_decidable (M : List Char) (tbl : String) : Decidable (markerOk M tbl) := by
  unfold markerOk
  infer_instance

/-! ### Characterization of serialization and of the deserializer's loop. -/

/-- The file writes `serializeCols` performs for a table's columns. -/
def writeCols {α : Type} (temp_f : String) : FS α → List (String × List α) → FS α
  | fs, [] => fs
  | fs, col :: rest =>
    writeCols temp_f (dictSet fs (temp_f ++ "/" ++ col.1) (col.1, col.2)) rest

/-- The chunk-map entries `serializeCols` appends for a table's columns. -/
def tableChunkEntries {α : Type} (M : List Char) (temp_f table_id : String)
    (cols : List (String × List α)) : List (String × ChunkDesc) :=
  cols.map (fun col =>
    ((⟨table_id.data ++ M ++ col.1.data⟩ : String),
     ChunkDesc.file (temp_f ++ "/" ++ col.1)))

/-- Fold of `tablesSet` over the columns of one table. -/
def tablesSetMany {α : Type} (table_id : String) : TMap α → List (String × List α) → TMap α
  | T, [] => T
  | T, c :: cs => tablesSetMany table_id (tablesSet T table_id c.1 c.2) cs

/-- The deserializer-side view of the chunk-map entries of one table. -/
def tableEntriesS {α : Type} (M : List Char) (temp_f table_id : String)
    (cols : List (String × List α)) : List (String × SEntry) :=
  cols.map (fun col =>
    ((⟨table_id.data ++ M ++ col.1.data⟩ : String),
     SEntry.files [temp_f ++ "/" ++ col.1]))

/-! ### Theorems. -/

theorem GraphType.value_ofString? {s : String} {gt : GraphType}
    (h : GraphType.ofString? s = some gt) : gt.value = s := by
  unfold GraphType.ofString? at h
  split at h
  · cases h; simpa [GraphType.value] using by simp_all
  · split at h
    · cases h; simp_all [GraphType.value]
    · split at h
      · cases h; simp_all [GraphType.value]
      · split at h
        · cases h; simp_all [GraphType.value]
        · cases h

theorem GraphType.ofString?_value (gt : GraphType) :
    GraphType.ofString? gt.value = some gt := by
  cases gt <;> rfl

theorem create_from_tables_ok_fields {α : Type} [LinearOrder α] {graph_type : GraphType}
    {edges_table : KTable α} {nodes_table : Option (KTable α)} {s t n : String}
    {g : NetworkGraph α}
    (h : create_from_tables graph_type edges_table nodes_table s t n = .ok g) :
    g.graph_type = graph_type.value ∧ g.source_column_name = s ∧
      g.target_column_name = t ∧ g.node_id_column_name = n ∧ g.edges = edges_table := by
  cases nodes_table with
  | none =>
    unfold create_from_tables at h
    dsimp only at h
    split at h
    · split at h
      · cases h; exact ⟨rfl, rfl, rfl, rfl, rfl⟩
      · cases h
    · cases h
  | some nt =>
    unfold create_from_tables at h
    dsimp only at h
    split at h
    · split at h
      · split at h
        · cases h; exact ⟨rfl, rfl, rfl, rfl, rfl⟩
        · cases h
      · cases h
    · cases h

/-- C5: for every edges table containing the configured source and target
columns, `create_from_tables` with the nodes table omitted succeeds, and the
derived nodes table is a single column named `node_id_column_name` whose
values are exactly the distinct values of the source and target columns in
ascending sorted order.  (Determinism across repeated calls is immediate:
the derivation is a pure function of the edges table, and a sorted
duplicate-free list is uniquely determined by its member set.) -/
theorem claim_C5_derived_nodes {α : Type} [LinearOrder α] (graph_type : GraphType)
    (edges_table : KTable α) (s t n : String)
    (hs : s ∈ columnNames edges_table) (ht : t ∈ columnNames edges_table) :
    ∃ g : NetworkGraph α,
      create_from_tables graph_type edges_table none s t n = .ok g ∧
      g.nodes.cols = [(n, derivedNodeValues edges_table s t)] ∧
      List.Sorted (· ≤ ·) (derivedNodeValues edges_table s t) ∧
      (derivedNodeValues edges_table s t).Nodup ∧
      ∀ a : α, a ∈ derivedNodeValues edges_table s t ↔
        (a ∈ colValues edges_table s ∨ a ∈ colValues edges_table t) := by
  refine ⟨⟨graph_type.value, s, t, n, edges_table,
    ⟨[(n, derivedNodeValues edges_table s t)]⟩⟩, ?_, rfl, ?_, ?_, ?_⟩
  · unfold create_from_tables
    dsimp only
    rw [if_pos hs, if_pos ht]
  · exact List.sorted_insertionSort _ _
  · exact (List.perm_insertionSort _ _).symm.nodup (List.nodup_dedup _)
  · intro a
    exact ((List.perm_insertionSort _ _).mem_iff).trans
      (List.mem_dedup.trans List.mem_append)

/-- Closed witness for `claim_C5_derived_nodes` at a concrete edges table. -/
theorem claim_C5_derived_nodes_witness :
    ∃ g : NetworkGraph String,
      create_from_tables .directed ⟨[("source", ["b", "a", "b"]), ("target", ["c", "a", "a"])]⟩
        none "source" "target" "node_id" = .ok g ∧
      g.nodes.cols = [("node_id",
        derivedNodeValues (⟨[("source", ["b", "a", "b"]), ("target", ["c", "a", "a"])]⟩ : KTable String)
          "source" "target")] ∧
      List.Sorted (· ≤ ·)
        (derivedNodeValues (⟨[("source", ["b", "a", "b"]), ("target", ["c", "a", "a"])]⟩ : KTable String)
          "source" "target") ∧
      (derivedNodeValues (⟨[("source", ["b", "a", "b"]), ("target", ["c", "a", "a"])]⟩ : KTable String)
        "source" "target").Nodup ∧
      ∀ a : String,
        a ∈ derivedNodeValues (⟨[("source", ["b", "a", "b"]), ("target", ["c", "a", "a"])]⟩ : KTable String)
            "source" "target" ↔
          (a ∈ colValues (⟨[("source", ["b", "a", "b"]), ("target", ["c", "a", "a"])]⟩ : KTable String) "source" ∨
           a ∈ colValues (⟨[("source", ["b", "a", "b"]), ("target", ["c", "a", "a"])]⟩ : KTable String) "target") :=
  claim_C5_derived_nodes .directed _ "source" "target" "node_id" (by decide) (by decide)

/-- C6: the classification chain is first-match-wins in the order
directed-multi, undirected-multi, directed, undirected: an input that is
both directed and multi-edged is always classified `directed_multi`, and an
input exposing none of the graph capabilities fails. -/
theorem claim_C6_graph_type_inference :
    (∀ d m : Bool, d = true → m = true →
      classifyGraphObject (some (d, m)) = .ok GraphType.directed_multi) ∧
    classifyGraphObject none = .error "Invalid graph type: <not a networkx graph>" := by
  constructor
  · intro d m hd hm
    subst hd; subst hm
    rfl
  · rfl

/-- Closed witness for `claim_C6_graph_type_inference` at the concrete
directed multigraph capability pair. -/
theorem claim_C6_graph_type_inference_witness :
    classifyGraphObject (some (true, true)) = .ok GraphType.directed_multi :=
  claim_C6_graph_type_inference.1 true true rfl rfl

/-- C7: schema validation of `create_from_tables`.  A missing source column
(resp. target column, resp. node-id column of a supplied nodes table) fails
with the schema-error message that names the missing column and enumerates
the table's actual column names; when all required columns are present,
construction succeeds and the resulting record satisfies the invariants
(its bindings are the configured ones, the edges table contains the source
and target columns, the nodes table contains the node-id column). -/
theorem claim_C7_schema_validation {α : Type} [LinearOrder α] (graph_type : GraphType)
    (edges_table : KTable α) (nodes_table : Option (KTable α)) (nt : KTable α)
    (s t n : String) :
    (s ∉ columnNames edges_table →
      create_from_tables graph_type edges_table nodes_table s t n =
        .error (schemaErrMsg "edges" s (columnNames edges_table))) ∧
    (s ∈ columnNames edges_table → t ∉ columnNames edges_table →
      create_from_tables graph_type edges_table nodes_table s t n =
        .error (schemaErrMsg "edges" t (columnNames edges_table))) ∧
    (s ∈ columnNames edges_table → t ∈ columnNames edges_table →
      n ∉ columnNames nt →
      create_from_tables graph_type edges_table (some nt) s t n =
        .error (schemaErrMsg "nodes" n (columnNames nt))) ∧
    (s ∈ columnNames edges_table → t ∈ columnNames edges_table →
      n ∈ columnNames nt →
      ∃ g : NetworkGraph α,
        create_from_tables graph_type edges_table (some nt) s t n = .ok g ∧
        g.source_column_name = s ∧ g.target_column_name = t ∧
        g.node_id_column_name = n ∧
        s ∈ columnNames g.edges ∧ t ∈ columnNames g.edges ∧
        n ∈ columnNames g.nodes) := by
  refine ⟨?_, ?_, ?_, ?_⟩
  · intro hs
    unfold create_from_tables
    dsimp only
    rw [if_neg hs]
  · intro hs ht
    unfold create_from_tables
    dsimp only
    rw [if_pos hs, if_neg ht]
  · intro hs ht hn
    unfold create_from_tables
    dsimp only
    rw [if_pos hs, if_pos ht, if_neg hn]
  · intro hs ht hn
    refine ⟨⟨graph_type.value, s, t, n, edges_table, nt⟩, ?_, rfl, rfl, rfl, hs, ht, hn⟩
    unfold create_from_tables
    dsimp only
    rw [if_pos hs, if_pos ht, if_pos hn]

/-- Closed witness for `claim_C7_schema_validation`: the missing-source
failure and the all-columns-present success, at concrete tables. -/
theorem claim_C7_schema_validation_witness :
    (create_from_tables GraphType.directed (⟨[("a", ["x"])]⟩ : KTable String) none
        "source" "target" "node_id" =
      .error (schemaErrMsg "edges" "source" ["a"])) ∧
    (∃ g : NetworkGraph String,
        create_from_tables GraphType.directed
          (⟨[("source", ["x"]), ("target", ["y"])]⟩ : KTable String)
          (some ⟨[("node_id", ["x", "y"])]⟩) "source" "target" "node_id" = .ok g ∧
        g.source_column_name = "source" ∧ g.target_column_name = "target" ∧
        g.node_id_column_name = "node_id" ∧
        "source" ∈ columnNames g.edges ∧ "target" ∈ columnNames g.edges ∧
        "node_id" ∈ columnNames g.nodes) := by
  constructor
  · exact (claim_C7_schema_validation GraphType.directed ⟨[("a", ["x"])]⟩ none
      ⟨[]⟩ "source" "target" "node_id").1 (by decide)
  · exact (claim_C7_schema_validation GraphType.directed
      (⟨[("source", ["x"]), ("target", ["y"])]⟩ : KTable String) none
      ⟨[("node_id", ["x", "y"])]⟩ "source" "target" "node_id").2.2.2
      (by decide) (by decide) (by decide)

/-- C2 (evaluation at the claimed inputs): the `"sum"` strategy with no
weight column merges three parallel `(A,B)` edges to weight 3, and
`"minimum"`/`"maximum"` over weights `[2,4]` yield 2/4, as claimed; but the
`"mean"` strategy over weights `[2,4]` yields `2/6 = 1/3` (count divided by
sum), not the claimed mean `3`. -/
theorem claim_C2_weight_merge_eval :
    mergeSumNoWeight [("A", "B"), ("A", "B"), ("A", "B")] = [("A", "B", 3)] ∧
    mergeMin [("A", "B", 2), ("A", "B", 4)] = [("A", "B", 2)] ∧
    mergeMax [("A", "B", 2), ("A", "B", 4)] = [("A", "B", 4)] ∧
    mergeMean [("A", "B", 2), ("A", "B", 4)] = [("A", "B", (1 : ℚ) / 3)] ∧
    mergeMean [("A", "B", 2), ("A", "B", 4)] ≠ [("A", "B", (3 : ℚ))] := by
  refine ⟨by decide, by decide, by decide,
    by norm_num [mergeMean, parallel_sum, counter, alookup, dictSet],
    by norm_num [mergeMean, parallel_sum, counter, alookup, dictSet]⟩

/-- C4 (evaluation at the failing input): two invocations of
`DegreeRankingModule.process` (resp. `Betweenness_Ranking.process` of
`centrality.py`) on the identical `network_data` input and identical module
configuration, at the two successive random-generator states, produce
different outputs — the attached centrality column is random, not a
function of the inputs. -/
theorem claim_C4_nondeterminism_eval :
    (degreeRankingProcess false "" [0] ⟨1, [("a", "b")], []⟩ ≠
      degreeRankingProcess false "" [1] ⟨1, [("a", "b")], []⟩) ∧
    (betweennessRankingProcess false "" true [0] ⟨1, [("a", "b")], []⟩ ≠
      betweennessRankingProcess false "" true [1] ⟨1, [("a", "b")], []⟩) := by
  refine ⟨by decide, by decide⟩

/-- C3 (counterexample): `CutPointsList.process` on a record whose
column-name bindings are `("from", "to", "id")` succeeds and returns a
record whose bindings are the construction defaults
`("source", "target", "node_id")` — NOT the bindings of the input record,
contradicting the claim that operations preserve the input's bindings. -/
theorem claim_C3_counterexample :
    cutPointsProcess (fun _ => [])
        ⟨"undirected", "from", "to", "id",
         ⟨[("from", ["a"]), ("to", ["b"])]⟩, ⟨[("id", ["a", "b"])]⟩⟩ =
      .ok ([],
        ⟨"undirected", "source", "target", "node_id",
         ⟨[("source", ["a"]), ("target", ["b"]), ("from", ["a"]), ("to", ["b"])]⟩,
         ⟨[("node_id", ["a", "b"]), ("id", ["a", "b"]), ("Cut Point", ["No", "No"])]⟩⟩) ∧
    ("source", "target", "node_id") ≠ (("from", "to", "id") : String × String × String) := by
  refine ⟨by decide, by decide⟩

/-- C3 (amended): whenever `create_from_networkx_graph` — the re-derivation
step every operation of the operation layer ends with — succeeds, the
resulting record carries the construction defaults `"source"`, `"target"`,
`"node_id"` as its three column-name bindings, regardless of the input's
bindings (the source hardcodes `"source"`/`"target"` and omits the node-id
argument when delegating to `create_from_tables`, lines 173-179). -/
theorem claim_C3_default_bindings (graph : GraphObj) (s t n : String)
    (g : NetworkGraph String)
    (h : create_from_networkx_graph graph s t n = .ok g) :
    g.source_column_name = "source" ∧ g.target_column_name = "target" ∧
      g.node_id_column_name = DEFAULT_NODE_ID_COLUMN_NAME := by
  unfold create_from_networkx_graph at h
  cases hc : classifyGraphObject (some (graph.directed, graph.multi)) with
  | error e =>
    rw [hc] at h
    cases h
  | ok gt =>
    rw [hc] at h
    dsimp only at h
    have hf := create_from_tables_ok_fields h
    exact ⟨hf.2.1, hf.2.2.1, hf.2.2.2.1⟩

/-- Closed witness for `claim_C3_default_bindings` at a concrete graph
object (the only successful invocations are the all-defaults ones). -/
theorem claim_C3_default_bindings_witness :
    ∃ g : NetworkGraph String,
      create_from_networkx_graph ⟨false, false, [("a", [])], []⟩
        "source" "target" "node_id" = .ok g ∧
      g.source_column_name = "source" ∧ g.target_column_name = "target" ∧
      g.node_id_column_name = DEFAULT_NODE_ID_COLUMN_NAME := by
  have h : create_from_networkx_graph ⟨false, false, [("a", [])], []⟩
      "source" "target" "node_id" =
      .ok ⟨"undirected", "source", "target", "node_id",
           ⟨[("source", []), ("target", [])]⟩, ⟨[("node_id", ["a"])]⟩⟩ := by decide
  exact ⟨_, h, claim_C3_default_bindings _ "source" "target" "node_id" _ h⟩

theorem filter_erase_of_neg {α : Type} [BEq α] [LawfulBEq α] (p : α → Bool) (a : α)
    (hp : p a = false) (l : List α) : (l.erase a).filter p = l.filter p := by
  induction l with
  | nil => rfl
  | cons b l ih =>
    rw [List.erase_cons]
    by_cases hba : (b == a) = true
    · rw [if_pos hba]
      rw [eq_of_beq hba]
      simp [List.filter_cons, hp]
    · rw [if_neg hba]
      simp only [List.filter_cons]
      rw [ih]

theorem stripSelfLoops_eraseEdgeOnce (G : GraphObj) (e : String × String × AttrRow)
    (hl : e.1 = e.2.1) :
    stripSelfLoops (eraseEdgeOnce G e) = stripSelfLoops G := by
  unfold stripSelfLoops eraseEdgeOnce
  dsimp only
  rw [filter_erase_of_neg _ e (by simp [hl]) G.edges]

/-- C9 (amended): (1) `Degree_Ranking`, `Betweenness_Ranking` and
`Eigenvector_Ranking` of the measures module strip all self-loop edges
before delegating, so the whole computation downstream of the projection —
the delegated measure, the annotated graph, and the re-derived record — is
identical on a graph with a self-loop edge and on the same graph with that
self-loop removed.  (2) The same holds for `Closeness_Ranking` when its
`weighted_closeness` input is false.  (3) It does NOT hold for
`Closeness_Ranking`'s weighted branch (on by default): that branch
delegates the weighted measure on a fresh UNSTRIPPED projection of the
record, so for an opaque measure the outputs on a self-loop graph and its
loop-free counterpart differ, exhibited concretely. -/
theorem claim_C9_self_loop_exclusion :
    (∀ (measure : GraphObj → String → String) (score_name : String)
        (G : GraphObj) (e : String × String × AttrRow),
      e ∈ G.edges → e.1 = e.2.1 →
      rankingOnGraph measure score_name (eraseEdgeOnce G e) =
        rankingOnGraph measure score_name G) ∧
    (∀ (closeness weighted_closeness : GraphObj → String → String) (wm : Bool)
        (weight_name : String) (G : GraphObj) (e : String × String × AttrRow),
      e ∈ G.edges → e.1 = e.2.1 →
      closenessRankingOnGraph closeness weighted_closeness false wm weight_name
          (eraseEdgeOnce G e) =
        closenessRankingOnGraph closeness weighted_closeness false wm weight_name G) ∧
    closenessRankingOnGraph (fun _ _ => "0")
        (fun g _ => if g.edges.any (fun e2 => e2.1 == e2.2.1) then "has-loop" else "no-loop")
        true false ""
        (eraseEdgeOnce ⟨false, false, [("a", []), ("b", [])],
          [("a", "a", []), ("a", "b", [])]⟩ ("a", "a", [])) ≠
      closenessRankingOnGraph (fun _ _ => "0")
        (fun g _ => if g.edges.any (fun e2 => e2.1 == e2.2.1) then "has-loop" else "no-loop")
        true false ""
        ⟨false, false, [("a", []), ("b", [])], [("a", "a", []), ("a", "b", [])]⟩ := by
  refine ⟨?_, ?_, ?_⟩
  · intro measure score_name G e he hl
    unfold rankingOnGraph
    rw [stripSelfLoops_eraseEdgeOnce G e hl]
  · intro closeness weighted_closeness wm weight_name G e he hl
    simp only [closenessRankingOnGraph, Bool.false_eq_true, if_false]
    rw [stripSelfLoops_eraseEdgeOnce G e hl]
  · decide

/-- Closed witness for `claim_C9_self_loop_exclusion`: its two universally
quantified parts applied at a concrete graph with a self-loop. -/
theorem claim_C9_self_loop_exclusion_witness :
    (rankingOnGraph (fun _ _ => "0") "Degree Score"
        (eraseEdgeOnce ⟨false, false, [("a", []), ("b", [])],
          [("a", "a", []), ("a", "b", [])]⟩ ("a", "a", [])) =
      rankingOnGraph (fun _ _ => "0") "Degree Score"
        ⟨false, false, [("a", []), ("b", [])], [("a", "a", []), ("a", "b", [])]⟩) ∧
    (closenessRankingOnGraph (fun _ _ => "0") (fun _ _ => "1") false true ""
        (eraseEdgeOnce ⟨false, false, [("a", []), ("b", [])],
          [("a", "a", []), ("a", "b", [])]⟩ ("a", "a", [])) =
      closenessRankingOnGraph (fun _ _ => "0") (fun _ _ => "1") false true ""
        ⟨false, false, [("a", []), ("b", [])], [("a", "a", []), ("a", "b", [])]⟩) :=
  ⟨claim_C9_self_loop_exclusion.1 (fun _ _ => "0") "Degree Score" _ ("a", "a", [])
      (by decide) rfl,
   claim_C9_self_loop_exclusion.2.1 (fun _ _ => "0") (fun _ _ => "1") true "" _
      ("a", "a", []) (by decide) rfl⟩

/-- C9 (counterexample): the claim also covers `DegreeRankingModule.process`
of `centrality.py` (cited in its sources), which strips no self-loops and
attaches fresh random draws as the degree column: on a graph with the
self-loop `(a,a)` and on the same graph without it, the two successive
invocations (consuming successive random-generator states) attach different
per-node values. -/
theorem claim_C9_counterexample :
    (degreeRankingProcess false "" [0, 0] ⟨2, [("a", "a"), ("a", "b")], []⟩).nodesAttrCols ≠
      (degreeRankingProcess false "" [1, 1] ⟨2, [("a", "b")], []⟩).nodesAttrCols := by
  decide

theorem alookup_dictSet_self {κ β : Type} [DecidableEq κ] (l : List (κ × β)) (k : κ) (v : β) :
    alookup (dictSet l k v) k = some v := by
  induction l with
  | nil => simp [dictSet, alookup]
  | cons p l ih =>
    by_cases h : p.1 = k
    · simp [dictSet, h, alookup]
    · simp [dictSet, h, alookup, ih]

theorem alookup_dictSet_other {κ β : Type} [DecidableEq κ] (l : List (κ × β)) (k k' : κ) (v : β)
    (h : k' ≠ k) : alookup (dictSet l k v) k' = alookup l k' := by
  induction l with
  | nil =>
    simp only [dictSet, alookup]
    rw [if_neg (fun hh => h hh.symm)]
  | cons p l ih =>
    by_cases hp : p.1 = k
    · simp only [dictSet, if_pos hp, alookup]
      rw [if_neg (fun hh => h hh.symm), if_neg (fun hh => h (hp ▸ hh).symm)]
    · simp only [dictSet, if_neg hp, alookup]
      by_cases hpk : p.1 = k'
      · rw [if_pos hpk, if_pos hpk]
      · rw [if_neg hpk, if_neg hpk]
        exact ih

theorem alookup_eq_none_of_forall {κ β : Type} [DecidableEq κ] (l : List (κ × β)) (k : κ)
    (h : ∀ p ∈ l, p.1 ≠ k) : alookup l k = none := by
  induction l with
  | nil => rfl
  | cons p l ih =>
    simp only [alookup, if_neg (h p (by simp))]
    exact ih (fun q hq => h q (by simp [hq]))

theorem alookup_append_of_none {κ β : Type} [DecidableEq κ] (l1 l2 : List (κ × β)) (k : κ)
    (h : alookup l1 k = none) : alookup (l1 ++ l2) k = alookup l2 k := by
  induction l1 with
  | nil => rfl
  | cons p l ih =>
    simp only [alookup] at h
    by_cases hp : p.1 = k
    · rw [if_pos hp] at h; cases h
    · rw [if_neg hp] at h
      simp only [List.cons_append, alookup, if_neg hp]
      exact ih h

theorem dictSet_eq_append_of_none {κ β : Type} [DecidableEq κ] (l : List (κ × β)) (k : κ) (v : β)
    (h : alookup l k = none) : dictSet l k v = l ++ [(k, v)] := by
  induction l with
  | nil => rfl
  | cons p l ih =>
    simp only [alookup] at h
    by_cases hp : p.1 = k
    · rw [if_pos hp] at h; cases h
    · rw [if_neg hp] at h
      simp only [dictSet, if_neg hp, List.cons_append]
      rw [ih h]

theorem dictSet_append_of_none {κ β : Type} [DecidableEq κ] (l1 l2 : List (κ × β)) (k : κ) (v : β)
    (h : alookup l1 k = none) : dictSet (l1 ++ l2) k v = l1 ++ dictSet l2 k v := by
  induction l1 with
  | nil => rfl
  | cons p l ih =>
    simp only [alookup] at h
    by_cases hp : p.1 = k
    · rw [if_pos hp] at h; cases h
    · rw [if_neg hp] at h
      simp only [List.cons_append, dictSet, if_neg hp]
      exact congrArg (fun x => p :: x) (ih h)

theorem isPre_append_self (M c : List Char) : isPre M (M ++ c) = true := by
  induction M with
  | nil => simp [isPre]
  | cons a M ih => simp [isPre, ih]

theorem isPre_append_right (M : List Char) (x c : List Char) (h : M.length ≤ x.length) :
    isPre M (x ++ c) = isPre M x := by
  induction M generalizing x with
  | nil => simp [isPre]
  | cons a M ih =>
    cases x with
    | nil => simp at h
    | cons b x' =>
      simp only [List.cons_append, isPre]
      exact congrArg (fun t => a == b && t) (ih x' (by simpa using h))

theorem splitFirst_of_isPre (M l : List Char) (hM : M ≠ [])
    (h : isPre M l = true) :
    splitFirst M l = some ([], l.drop M.length) := by
  cases l with
  | nil =>
    cases M with
    | nil => exact absurd rfl hM
    | cons a as => simp [isPre] at h
  | cons x xs =>
    unfold splitFirst
    rw [if_pos h]

theorem splitFirst_cons_of_not (M : List Char) (x : Char) (xs : List Char)
    (h : isPre M (x :: xs) = false) :
    splitFirst M (x :: xs) = (splitFirst M xs).map fun p => (x :: p.1, p.2) := by
  rw [show splitFirst M (x :: xs) =
      (if isPre M (x :: xs) then some ([], (x :: xs).drop M.length)
       else (splitFirst M xs).map fun p => (x :: p.1, p.2)) from rfl]
  rw [if_neg (by simp [h])]

theorem splitFirst_key (M : List Char) (tbl : String) (c : List Char)
    (hok : markerOk M tbl) :
    splitFirst M (tbl.data ++ M ++ c) = some (tbl.data, c) := by
  obtain ⟨hM, hpre⟩ := hok
  suffices h : ∀ (t : List Char), (∀ i < t.length, isPre M ((t ++ M).drop i) = false) →
      splitFirst M (t ++ M ++ c) = some (t, c) from h tbl.data hpre
  intro t
  induction t with
  | nil =>
    intro _
    rw [List.nil_append]
    rw [splitFirst_of_isPre M (M ++ c) hM (isPre_append_self M c)]
    rw [List.drop_left]
  | cons x xs ih =>
    intro hp
    have h0 : isPre M (x :: (xs ++ M)) = false := by
      have := hp 0 (by simp)
      simpa using this
    have hx : isPre M (x :: (xs ++ M ++ c)) = false := by
      have heq : x :: (xs ++ M ++ c) = (x :: (xs ++ M)) ++ c := by simp
      rw [heq, isPre_append_right M (x :: (xs ++ M)) c (by simp; omega)]
      exact h0
    have hrw : (x :: xs) ++ M ++ c = x :: (xs ++ M ++ c) := by simp
    rw [hrw, splitFirst_cons_of_not M x _ hx]
    rw [ih (fun i hi => by
      have := hp (i + 1) (by simpa using Nat.succ_lt_succ hi)
      simpa using this)]
    rfl

theorem splitFirst_key_isSome (M : List Char) (tbl : String) (c : List Char)
    (hok : markerOk M tbl) :
    (splitFirst M (tbl.data ++ M ++ c)).isSome = true := by
  rw [splitFirst_key M tbl c hok]
  rfl

/-- A serialized data key (which contains the marker) is never the literal
`"graph_metadata"` when the marker does not occur in `"graph_metadata"`. -/
theorem key_ne_graph_metadata (M : List Char) (tbl : String) (c : List Char)
    (hok : markerOk M tbl)
    (hgm : splitFirst M "graph_metadata".data = none) :
    (⟨tbl.data ++ M ++ c⟩ : String) ≠ "graph_metadata" := by
  intro h
  have hd : tbl.data ++ M ++ c = "graph_metadata".data := congrArg String.data h
  have := splitFirst_key M tbl c hok
  rw [hd, hgm] at this
  cases this

theorem serializeCols_eq {α : Type} (M : List Char) (temp_f table_id : String)
    (cols : List (String × List α)) (acc : List (String × ChunkDesc) × FS α)
    (hne : ∀ c ∈ cols, c.1 ≠ "") :
    serializeCols M temp_f table_id cols acc =
      .ok (acc.1 ++ tableChunkEntries M temp_f table_id cols,
           writeCols temp_f acc.2 cols) := by
  induction cols generalizing acc with
  | nil => simp [serializeCols, tableChunkEntries, writeCols]
  | cons col rest ih =>
    simp only [serializeCols]
    rw [if_neg (hne col (by simp))]
    rw [ih _ (fun c hc => hne c (by simp [hc]))]
    simp [tableChunkEntries, writeCols, List.append_assoc]

theorem path_inj (temp_f : String) {a b : String}
    (h : temp_f ++ "/" ++ a = temp_f ++ "/" ++ b) : a = b := by
  have hd := congrArg String.data h
  simp only [String.data_append] at hd
  exact congrArg String.mk (List.append_cancel_left hd)

theorem alookup_writeCols_of_ne {α : Type} (temp_f : String) (fs : FS α)
    (cols : List (String × List α)) (p : String)
    (hp : ∀ c ∈ cols, temp_f ++ "/" ++ c.1 ≠ p) :
    alookup (writeCols temp_f fs cols) p = alookup fs p := by
  induction cols generalizing fs with
  | nil => rfl
  | cons c rest ih =>
    simp only [writeCols]
    rw [ih _ (fun q hq => hp q (by simp [hq]))]
    exact alookup_dictSet_other _ _ _ _ (fun hh => hp c (by simp) hh.symm)

theorem alookup_writeCols_mem {α : Type} (temp_f : String) (fs : FS α)
    (cols : List (String × List α)) (c : String) (vals : List α)
    (hmem : (c, vals) ∈ cols) (hnodup : (cols.map Prod.fst).Nodup) :
    alookup (writeCols temp_f fs cols) (temp_f ++ "/" ++ c) = some (c, vals) := by
  induction cols generalizing fs with
  | nil => cases hmem
  | cons col rest ih =>
    simp only [writeCols]
    have hnd : (col.1 :: rest.map Prod.fst).Nodup := by
      rw [← List.map_cons]
      exact hnodup
    rcases List.mem_cons.mp hmem with heq | hrest
    · have hc : c ∉ rest.map Prod.fst := by
        have h1 := (List.nodup_cons.mp hnd).1
        have h2 : col.1 = c := by rw [← heq]
        rwa [h2] at h1
      rw [alookup_writeCols_of_ne _ _ rest _ (fun q hq hpath => by
        exact hc (by
          rw [← path_inj temp_f hpath]
          exact List.mem_map_of_mem Prod.fst hq))]
      rw [show col = (c, vals) from heq.symm]
      exact alookup_dictSet_self _ _ _
    · exact ih _ hrest (List.nodup_cons.mp hnd).2

theorem tablesSetMany_pre {α : Type} (table_id : String) (pre : TMap α)
    (done cs : List (String × List α))
    (hpre : alookup pre table_id = none)
    (hnodup : ((done ++ cs).map Prod.fst).Nodup) :
    tablesSetMany table_id (pre ++ [(table_id, done)]) cs =
      pre ++ [(table_id, done ++ cs)] := by
  induction cs generalizing done with
  | nil => simp [tablesSetMany]
  | cons c cs ih =>
    simp only [tablesSetMany]
    have h1 : alookup (pre ++ [(table_id, done)]) table_id = some done := by
      rw [alookup_append_of_none _ _ _ hpre]
      simp [alookup]
    have hdone : alookup done c.1 = none := by
      apply alookup_eq_none_of_forall
      intro p hp hpc
      have hnd := hnodup
      rw [List.map_append] at hnd
      rcases List.nodup_append.mp hnd with ⟨_, _, hdisj⟩
      exact hdisj (hpc ▸ List.mem_map_of_mem Prod.fst hp) (by simp)
    have hstep : tablesSet (pre ++ [(table_id, done)]) table_id c.1 c.2 =
        pre ++ [(table_id, done ++ [c])] := by
      unfold tablesSet
      rw [h1]
      dsimp only
      rw [dictSet_append_of_none _ _ _ _ hpre]
      have : dictSet [(table_id, done)] table_id (dictSet done c.1 c.2) =
          [(table_id, dictSet done c.1 c.2)] := by simp [dictSet]
      rw [this, dictSet_eq_append_of_none _ _ _ hdone]
    rw [hstep]
    rw [ih (done ++ [c]) (by
      rw [List.append_assoc, List.singleton_append]
      exact hnodup)]
    rw [List.append_assoc, List.singleton_append]

theorem tablesSetMany_first_table {α : Type} (table_id : String)
    (c : String × List α) (cs : List (String × List α))
    (hnodup : ((c :: cs).map Prod.fst).Nodup) :
    tablesSetMany table_id ([] : TMap α) (c :: cs) = [(table_id, c :: cs)] := by
  simp only [tablesSetMany]
  have h0 : tablesSet ([] : TMap α) table_id c.1 c.2 =
      [] ++ [(table_id, [(c.1, c.2)])] := rfl
  rw [h0]
  rw [tablesSetMany_pre table_id [] [(c.1, c.2)] cs rfl (by simpa using hnodup)]
  rfl

theorem tablesSetMany_second_table {α : Type} (t1 t2 : String)
    (E : List (String × List α)) (c : String × List α) (cs : List (String × List α))
    (hne : t1 ≠ t2) (hnodup : ((c :: cs).map Prod.fst).Nodup) :
    tablesSetMany t2 ([(t1, E)] : TMap α) (c :: cs) = [(t1, E), (t2, c :: cs)] := by
  simp only [tablesSetMany]
  have hl : alookup ([(t1, E)] : TMap α) t2 = none := by
    simp [alookup, hne]
  have h0 : tablesSet ([(t1, E)] : TMap α) t2 c.1 c.2 =
      [(t1, E)] ++ [(t2, [(c.1, c.2)])] := by
    unfold tablesSet
    rw [hl]
  rw [h0]
  rw [tablesSetMany_pre t2 [(t1, E)] [(c.1, c.2)] cs hl (by simpa using hnodup)]
  rfl

theorem map_toSEntry_tableChunkEntries {α : Type} (M : List Char)
    (temp_f table_id : String) (cols : List (String × List α)) :
    (tableChunkEntries M temp_f table_id cols).map (fun kc => (kc.1, toSEntry kc.2)) =
      tableEntriesS M temp_f table_id cols := by
  simp [tableChunkEntries, tableEntriesS, List.map_map, toSEntry]

theorem deserStep_files {α : Type} (M : List Char) (fs : FS α) (k : String)
    (p : String) (T : TMap α) (t c : List Char) (vals : List α)
    (hk : k ≠ "graph_metadata")
    (hsplit : splitFirst M k.data = some (t, c))
    (hfs : alookup fs p = some (⟨c⟩, vals)) :
    deserStep M fs k (SEntry.files [p]) T = .ok (tablesSet T ⟨t⟩ ⟨c⟩ vals) := by
  unfold deserStep
  rw [if_neg hk, hsplit]
  dsimp only
  rw [if_pos (show chunkCount (SEntry.files [p]) = 1 from rfl)]
  dsimp only [List.head?]
  rw [hfs]
  dsimp only
  rw [if_pos rfl]

theorem deserLoop_table {α : Type} (M : List Char) (fs : FS α)
    (temp_f table_id : String) (cols : List (String × List α))
    (rest : List (String × SEntry)) (T : TMap α)
    (hok : markerOk M table_id)
    (hgm : splitFirst M "graph_metadata".data = none)
    (hfs : ∀ c ∈ cols, alookup fs (temp_f ++ "/" ++ c.1) = some (c.1, c.2)) :
    deserLoop M fs (tableEntriesS M temp_f table_id cols ++ rest) T =
      deserLoop M fs rest (tablesSetMany table_id T cols) := by
  induction cols generalizing T with
  | nil => simp [tableEntriesS, tablesSetMany]
  | cons c cs ih =>
    simp only [tableEntriesS, List.map_cons, List.cons_append]
    simp only [deserLoop]
    rw [deserStep_files M fs _ _ T table_id.data c.1.data c.2
      (key_ne_graph_metadata M table_id c.1.data hok hgm)
      (splitFirst_key M table_id c.1.data hok)
      (hfs c (by simp))]
    exact ih _ (fun q hq => hfs q (List.mem_cons_of_mem c hq))

/-- Full characterization of a successful `serialize` run: the chunk map is
the edges entries, then the nodes entries, then the metadata entry; the
file store holds the edges columns overwritten by the nodes columns. -/
theorem serialize_eq {α : Type} (M : List Char) (temp_f : String) (g : NetworkGraph α)
    (hedges_id : splitFirst M "edges".data = none)
    (hnodes_id : splitFirst M "nodes".data = none)
    (hne : ∀ c ∈ columnNames g.edges ++ columnNames g.nodes, c ≠ "") :
    serialize M temp_f g =
      .ok (tableChunkEntries M temp_f "edges" g.edges.cols ++
             tableChunkEntries M temp_f "nodes" g.nodes.cols ++
             [("graph_metadata",
               ChunkDesc.inlineJson ⟨g.graph_type, g.source_column_name,
                 g.target_column_name, g.node_id_column_name⟩)],
           writeCols temp_f (writeCols temp_f [] g.edges.cols) g.nodes.cols) := by
  unfold serialize checkTableId
  rw [if_neg (show ¬ ("edges" : String) = "" by decide),
      if_neg (show ¬ ("nodes" : String) = "" by decide),
      hedges_id, hnodes_id]
  simp only [Option.isSome_none, Bool.false_eq_true, if_false]
  rw [serializeCols_eq M temp_f "edges" g.edges.cols ([], [])
    (fun c hc => hne c.1 (by
      rw [List.mem_append]
      exact Or.inl (List.mem_map_of_mem Prod.fst hc)))]
  dsimp only
  rw [serializeCols_eq M temp_f "nodes" g.nodes.cols _
    (fun c hc => hne c.1 (by
      rw [List.mem_append]
      exact Or.inr (List.mem_map_of_mem Prod.fst hc)))]
  dsimp only
  simp [List.append_assoc]

theorem alookup_append_of_some {κ β : Type} [DecidableEq κ] (l1 l2 : List (κ × β)) (k : κ)
    (v : β) (h : alookup l1 k = some v) : alookup (l1 ++ l2) k = some v := by
  induction l1 with
  | nil => cases h
  | cons p l ih =>
    simp only [alookup] at h
    by_cases hp : p.1 = k
    · rw [if_pos hp] at h
      simp only [List.cons_append, alookup, if_pos hp]
      exact h
    · rw [if_neg hp] at h
      simp only [List.cons_append, alookup, if_neg hp]
      exact ih h

theorem serial_key_inj (M : List Char) (tid : String) {a b : List Char}
    (h : (⟨tid.data ++ M ++ a⟩ : String) = ⟨tid.data ++ M ++ b⟩) : a = b := by
  have hd : tid.data ++ M ++ a = tid.data ++ M ++ b := congrArg String.data h
  exact List.append_cancel_left hd

theorem alookup_tableChunkEntries_mem {α : Type} (M : List Char) (temp_f tid : String)
    (cols : List (String × List α)) (c : String)
    (hc : c ∈ cols.map Prod.fst) :
    alookup (tableChunkEntries M temp_f tid cols) ⟨tid.data ++ M ++ c.data⟩ =
      some (ChunkDesc.file (temp_f ++ "/" ++ c)) := by
  induction cols with
  | nil => cases hc
  | cons col rest ih =>
    simp only [tableChunkEntries, List.map_cons, alookup]
    by_cases h : col.1 = c
    · rw [if_pos (by rw [h]), h]
    · rw [if_neg (fun hh => h (by
        have := serial_key_inj M tid hh
        exact congrArg String.mk this))]
      exact ih (by
        rcases List.mem_cons.mp hc with h1 | h2
        · exact absurd h1.symm h
        · exact h2)

theorem edges_key_ne_nodes_key (M a b : List Char) :
    (⟨"edges".data ++ M ++ a⟩ : String) ≠ ⟨"nodes".data ++ M ++ b⟩ := by
  intro h
  have hd : "edges".data ++ M ++ a = "nodes".data ++ M ++ b := congrArg String.data h
  have he : ("edges".data ++ M ++ a).head? = some 'e' := rfl
  rw [hd] at he
  have hn : ("nodes".data ++ M ++ b).head? = some 'n' := rfl
  rw [hn] at he
  simp at he

theorem colValues_mem {α : Type} (t : KTable α) (c : String) (hc : c ∈ columnNames t) :
    (c, colValues t c) ∈ t.cols := by
  unfold colValues getCol
  cases hfind : t.cols.find? (fun p => p.1 = c) with
  | none =>
    exfalso
    rcases List.mem_map.mp hc with ⟨p, hp, hpc⟩
    have := List.find?_eq_none.mp hfind p hp
    simp [hpc] at this
  | some p =>
    have hp1 : p.1 = c := by
      have := List.find?_some hfind
      simpa using this
    have hmem := List.mem_of_find?_eq_some hfind
    have hpe : p = (c, p.2) := by
      rw [← hp1]
    rw [hpe] at hmem
    simpa using hmem

/-- C10: during serialization the chunk file path of every (table, column)
pair is `<temp dir>/<column name>` — the table id is not part of the path.
For a record whose edges and nodes tables share a column name `c`, the two
distinct chunk-map keys for `c` reference the identical path, and the file
at that path holds the column stored second: the nodes table's `c` column
(the tables are iterated as edges then nodes). -/
theorem claim_C10_chunk_path_collision {α : Type} (M : List Char) (temp_f : String)
    (g : NetworkGraph α) (c : String)
    (hce : c ∈ columnNames g.edges) (hcn : c ∈ columnNames g.nodes)
    (hnodup_n : (columnNames g.nodes).Nodup)
    (hne : ∀ c' ∈ columnNames g.edges ++ columnNames g.nodes, c' ≠ "")
    (hedges_id : splitFirst M "edges".data = none)
    (hnodes_id : splitFirst M "nodes".data = none) :
    ∃ (cm : List (String × ChunkDesc)) (fs' : FS α),
      serialize M temp_f g = .ok (cm, fs') ∧
      alookup cm ⟨"edges".data ++ M ++ c.data⟩ =
        some (ChunkDesc.file (temp_f ++ "/" ++ c)) ∧
      alookup cm ⟨"nodes".data ++ M ++ c.data⟩ =
        some (ChunkDesc.file (temp_f ++ "/" ++ c)) ∧
      alookup fs' (temp_f ++ "/" ++ c) = some (c, colValues g.nodes c) := by
  refine ⟨_, _, serialize_eq M temp_f g hedges_id hnodes_id hne, ?_, ?_, ?_⟩
  · exact alookup_append_of_some _ _ _ _
      (alookup_append_of_some _ _ _ _
        (alookup_tableChunkEntries_mem M temp_f "edges" g.edges.cols c hce))
  · refine alookup_append_of_some _ _ _ _ ?_
    rw [alookup_append_of_none _ _ _ (alookup_eq_none_of_forall _ _ (fun p hp => by
      rcases List.mem_map.mp hp with ⟨col, _, hcol⟩
      rw [← hcol]
      exact fun hh => edges_key_ne_nodes_key M col.1.data c.data hh))]
    exact alookup_tableChunkEntries_mem M temp_f "nodes" g.nodes.cols c hcn
  · exact alookup_writeCols_mem temp_f _ g.nodes.cols c (colValues g.nodes c)
      (colValues_mem g.nodes c hcn) hnodup_n

/-- Closed witness for `claim_C10_chunk_path_collision`: a record whose
edges and nodes tables both carry a `"source"` column, with the marker
instantiated to `"__"`. -/
theorem claim_C10_chunk_path_collision_witness :
    ∃ (cm : List (String × ChunkDesc)) (fs' : FS String),
      serialize "__".data "/t"
        (⟨"directed", "source", "target", "node_id",
          ⟨[("source", ["a"]), ("target", ["b"])]⟩,
          ⟨[("node_id", ["a", "b"]), ("source", ["x", "y"])]⟩⟩ : NetworkGraph String) =
        .ok (cm, fs') ∧
      alookup cm ⟨"edges".data ++ "__".data ++ "source".data⟩ =
        some (ChunkDesc.file ("/t" ++ "/" ++ "source")) ∧
      alookup cm ⟨"nodes".data ++ "__".data ++ "source".data⟩ =
        some (ChunkDesc.file ("/t" ++ "/" ++ "source")) ∧
      alookup fs' ("/t" ++ "/" ++ "source") =
        some ("source",
          colValues (⟨[("node_id", ["a", "b"]), ("source", ["x", "y"])]⟩ : KTable String)
            "source") :=
  claim_C10_chunk_path_collision "__".data "/t" _ "source"
    (by decide) (by decide) (by decide) (by decide) (by decide) (by decide)

theorem tablesSetMany_first_table_ne {α : Type} (table_id : String)
    (cols : List (String × List α)) (hcols : cols ≠ [])
    (hnodup : (cols.map Prod.fst).Nodup) :
    tablesSetMany table_id ([] : TMap α) cols = [(table_id, cols)] := by
  cases cols with
  | nil => exact absurd rfl hcols
  | cons c cs => exact tablesSetMany_first_table table_id c cs hnodup

theorem tablesSetMany_second_table_ne {α : Type} (t1 t2 : String)
    (E cols : List (String × List α)) (hne : t1 ≠ t2) (hcols : cols ≠ [])
    (hnodup : (cols.map Prod.fst).Nodup) :
    tablesSetMany t2 ([(t1, E)] : TMap α) cols = [(t1, E), (t2, cols)] := by
  cases cols with
  | nil => exact absurd rfl hcols
  | cons c cs => exact tablesSetMany_second_table t1 t2 E c cs hne hnodup

theorem cols_ne_nil_of_mem_columnNames {α : Type} (t : KTable α) (c : String)
    (hc : c ∈ columnNames t) : t.cols ≠ [] := by
  intro h
  rw [columnNames, h] at hc
  cases hc

theorem deserLoop_gm_only {α : Type} (M : List Char) (fs : FS α) (T : TMap α)
    (meta : GraphMetadata) :
    deserLoop M fs [("graph_metadata", SEntry.json meta)] T = .ok T := by
  simp [deserLoop, deserStep]

theorem alookup_tableEntriesS_gm_none {α : Type} (M : List Char) (temp_f tid : String)
    (cols : List (String × List α)) (hok : markerOk M tid)
    (hgm : splitFirst M "graph_metadata".data = none) :
    alookup (tableEntriesS M temp_f tid cols) "graph_metadata" = none := by
  apply alookup_eq_none_of_forall
  intro p hp
  rcases List.mem_map.mp hp with ⟨col, _, hcol⟩
  rw [← hcol]
  exact key_ne_graph_metadata M tid col.1.data hok hgm

/-- C1 (amended): `deserialize(serialize(g))` returns `g` itself — same
graph type, same column-name bindings, same tables with the same column
order and cell values — for every valid record `g` (parsable graph type,
source/target columns present in the edges table, node-id column present
in the nodes table, non-empty column names) whose column names are not
duplicated within a table NOR shared between the edges and nodes tables,
with a well-behaved split marker (non-empty, absent from the table ids and
from `"graph_metadata"`, and not overlapping the table-id/marker
boundary). -/
theorem claim_C1_roundtrip_disjoint {α : Type} [LinearOrder α] (M : List Char)
    (temp_f : String) (g : NetworkGraph α) (gt : GraphType)
    (hgt : GraphType.ofString? g.graph_type = some gt)
    (hs : g.source_column_name ∈ columnNames g.edges)
    (ht : g.target_column_name ∈ columnNames g.edges)
    (hn : g.node_id_column_name ∈ columnNames g.nodes)
    (hnodup : (columnNames g.edges ++ columnNames g.nodes).Nodup)
    (hne : ∀ c ∈ columnNames g.edges ++ columnNames g.nodes, c ≠ "")
    (hok_e : markerOk M "edges")
    (hok_n : markerOk M "nodes")
    (hgm : splitFirst M "graph_metadata".data = none)
    (hedges_id : splitFirst M "edges".data = none)
    (hnodes_id : splitFirst M "nodes".data = none) :
    roundtrip M temp_f g = .ok g := by
  obtain ⟨hnodup_e, hnodup_n, hdisj⟩ := List.nodup_append.mp hnodup
  have hfs_nodes : ∀ c ∈ g.nodes.cols,
      alookup (writeCols temp_f (writeCols temp_f [] g.edges.cols) g.nodes.cols)
        (temp_f ++ "/" ++ c.1) = some (c.1, c.2) := by
    intro c hc
    exact alookup_writeCols_mem temp_f _ g.nodes.cols c.1 c.2 hc hnodup_n
  have hfs_edges : ∀ c ∈ g.edges.cols,
      alookup (writeCols temp_f (writeCols temp_f [] g.edges.cols) g.nodes.cols)
        (temp_f ++ "/" ++ c.1) = some (c.1, c.2) := by
    intro c hc
    rw [alookup_writeCols_of_ne temp_f _ g.nodes.cols _ (fun q hq hpath => by
      have hq1 : q.1 = c.1 := path_inj temp_f hpath
      exact hdisj (List.mem_map_of_mem Prod.fst hc)
        (hq1 ▸ List.mem_map_of_mem Prod.fst hq))]
    exact alookup_writeCols_mem temp_f [] g.edges.cols c.1 c.2 hc hnodup_e
  unfold roundtrip
  rw [serialize_eq M temp_f g hedges_id hnodes_id hne]
  dsimp only
  rw [List.map_append, List.map_append,
      map_toSEntry_tableChunkEntries, map_toSEntry_tableChunkEntries]
  unfold to__python_object
  simp only [List.map_cons, List.map_nil, toSEntry]
  rw [List.append_assoc]
  rw [show alookup (tableEntriesS M temp_f "edges" g.edges.cols ++
        (tableEntriesS M temp_f "nodes" g.nodes.cols ++
          [("graph_metadata",
            SEntry.json ⟨g.graph_type, g.source_column_name,
              g.target_column_name, g.node_id_column_name⟩)])) "graph_metadata" =
      some (SEntry.json ⟨g.graph_type, g.source_column_name,
        g.target_column_name, g.node_id_column_name⟩) from by
    rw [alookup_append_of_none _ _ _
        (alookup_tableEntriesS_gm_none M temp_f "edges" g.edges.cols hok_e hgm),
      alookup_append_of_none _ _ _
        (alookup_tableEntriesS_gm_none M temp_f "nodes" g.nodes.cols hok_n hgm)]
    simp [alookup]]
  dsimp only
  rw [hgt]
  dsimp only
  rw [deserLoop_table M _ temp_f "edges" g.edges.cols _ [] hok_e hgm hfs_edges]
  rw [tablesSetMany_first_table_ne "edges" g.edges.cols
    (cols_ne_nil_of_mem_columnNames g.edges _ hs) hnodup_e]
  rw [deserLoop_table M _ temp_f "nodes" g.nodes.cols _ _ hok_n hgm hfs_nodes]
  rw [tablesSetMany_second_table_ne "edges" "nodes" g.edges.cols g.nodes.cols
    (by decide) (cols_ne_nil_of_mem_columnNames g.nodes _ hn) hnodup_n]
  rw [deserLoop_gm_only]
  dsimp only
  rw [show alookup [("edges", g.edges.cols), ("nodes", g.nodes.cols)] "edges" =
      some g.edges.cols from by simp [alookup]]
  rw [show alookup [("edges", g.edges.cols), ("nodes", g.nodes.cols)] "nodes" =
      some g.nodes.cols from by simp [alookup]]
  dsimp only
  rw [if_neg (show ¬ g.nodes.cols.isEmpty = true from by
    cases hcols : g.nodes.cols with
    | nil => exact absurd hcols (cols_ne_nil_of_mem_columnNames g.nodes _ hn)
    | cons a l => simp [List.isEmpty])]
  unfold create_from_tables
  dsimp only
  rw [if_pos hs, if_pos ht, if_pos hn]
  rw [GraphType.value_ofString? hgt]

/-- Closed witness for `claim_C1_roundtrip_disjoint` at a concrete record
and the marker `"__"`. -/
theorem claim_C1_roundtrip_disjoint_witness :
    roundtrip "__".data "/t"
      (⟨"directed", "source", "target", "node_id",
        ⟨[("source", ["a"]), ("target", ["b"])]⟩,
        ⟨[("node_id", ["a", "b"])]⟩⟩ : NetworkGraph String) =
      .ok ⟨"directed", "source", "target", "node_id",
        ⟨[("source", ["a"]), ("target", ["b"])]⟩,
        ⟨[("node_id", ["a", "b"])]⟩⟩ :=
  claim_C1_roundtrip_disjoint "__".data "/t" _ GraphType.directed
    (by decide) (by decide) (by decide) (by decide) (by decide) (by decide)
    (by decide) (by decide) (by decide) (by decide) (by decide)

/-- C1 (counterexample): the round trip is NOT the identity on every valid
record.  For a valid record whose nodes table also carries a `"source"`
column, the per-column chunk files collide (cf. the path collision of the
serializer), and deserialization returns a record whose edges `"source"`
column holds the nodes table's values `["x", "y"]` instead of `["a"]`. -/
theorem claim_C1_roundtrip_counterexample :
    roundtrip "__".data "/t"
      (⟨"directed", "source", "target", "node_id",
        ⟨[("source", ["a"]), ("target", ["b"])]⟩,
        ⟨[("node_id", ["a", "b"]), ("source", ["x", "y"])]⟩⟩ : NetworkGraph String) =
      .ok ⟨"directed", "source", "target", "node_id",
        ⟨[("source", ["x", "y"]), ("target", ["b"])]⟩,
        ⟨[("node_id", ["a", "b"]), ("source", ["x", "y"])]⟩⟩ ∧
    (⟨[("source", ["x", "y"]), ("target", ["b"])]⟩ : KTable String) ≠
      ⟨[("source", ["a"]), ("target", ["b"])]⟩ := by
  refine ⟨by decide, by decide⟩

theorem deserLoop_ok_clean {α : Type} (M : List Char) (fs : FS α)
    (entries : List (String × SEntry)) (T T' : TMap α)
    (h : deserLoop M fs entries T = .ok T') :
    ∀ ke ∈ entries, ke.1 ≠ "graph_metadata" →
      (splitFirst M ke.1.data).isSome = true ∧ chunkCount ke.2 = 1 := by
  induction entries generalizing T with
  | nil => intro ke hke; cases hke
  | cons ke0 rest ih =>
    obtain ⟨k, e⟩ := ke0
    simp only [deserLoop] at h
    cases hstep : deserStep M fs k e T with
    | error er => rw [hstep] at h; cases h
    | ok T1 =>
      rw [hstep] at h
      intro ke hke hne
      rcases List.mem_cons.mp hke with heq | hrest
      · subst heq
        unfold deserStep at hstep
        rw [if_neg hne] at hstep
        cases hsp : splitFirst M k.data with
        | none => rw [hsp] at hstep; cases hstep
        | some tc =>
          rw [hsp] at hstep
          dsimp only at hstep
          by_cases hc : chunkCount e = 1
          · exact ⟨by simp [hsp], hc⟩
          · rw [if_neg hc] at hstep; cases hstep
      · exact ih T1 h ke hrest hne

theorem to_py_ok_deserLoop_ok {α : Type} [LinearOrder α] (M : List Char)
    (entries : List (String × SEntry)) (fs : FS α) (g : NetworkGraph α)
    (h : to__python_object M entries fs = .ok g) :
    ∃ T, deserLoop M fs entries [] = .ok T := by
  unfold to__python_object at h
  cases h1 : alookup entries "graph_metadata" with
  | none => rw [h1] at h; cases h
  | some se =>
    rw [h1] at h
    cases se with
    | files fl => cases h
    | json meta =>
      dsimp only at h
      cases h2 : GraphType.ofString? meta.graph_type with
      | none => rw [h2] at h; cases h
      | some gt =>
        rw [h2] at h
        dsimp only at h
        cases h3 : deserLoop M fs entries [] with
        | error er => rw [h3] at h; cases h
        | ok T => exact ⟨T, rfl⟩

/-- C8: the deserializer never silently skips or truncates.  (1) Whenever
`to__python_object` succeeds, every key other than `graph_metadata`
contains the split marker and has exactly one storage chunk — so a
serialized mapping containing an offending key or a multi-chunk column can
never deserialize.  (2) A non-metadata key lacking the marker fails with
the error that names the offending key.  (3) A column with more than one
(or zero) storage chunks fails the `get_number_of_chunks() == 1`
assertion. -/
theorem claim_C8_deserialize_errors {α : Type} [LinearOrder α] (M : List Char) :
    (∀ (entries : List (String × SEntry)) (fs : FS α) (g : NetworkGraph α),
      to__python_object M entries fs = .ok g →
      ∀ ke ∈ entries, ke.1 ≠ "graph_metadata" →
        (splitFirst M ke.1.data).isSome = true ∧ chunkCount ke.2 = 1) ∧
    (∀ (meta : GraphMetadata) (k : String) (e : SEntry)
        (rest : List (String × SEntry)) (fs : FS α),
      k ≠ "graph_metadata" → splitFirst M k.data = none →
      (GraphType.ofString? meta.graph_type).isSome = true →
      to__python_object M (("graph_metadata", SEntry.json meta) :: (k, e) :: rest) fs =
        .error (invalidKeyMsg M k)) ∧
    (∀ (meta : GraphMetadata) (k : String) (tc : List Char × List Char)
        (fl : List String) (rest : List (String × SEntry)) (fs : FS α),
      k ≠ "graph_metadata" → splitFirst M k.data = some tc → fl.length ≠ 1 →
      (GraphType.ofString? meta.graph_type).isSome = true →
      to__python_object M
          (("graph_metadata", SEntry.json meta) :: (k, SEntry.files fl) :: rest) fs =
        .error "AssertionError: chunks.get_number_of_chunks() == 1") := by
  refine ⟨?_, ?_, ?_⟩
  · intro entries fs g h ke hke hne
    obtain ⟨T, hT⟩ := to_py_ok_deserLoop_ok M entries fs g h
    exact deserLoop_ok_clean M fs entries [] T hT ke hke hne
  · intro meta k e rest fs hk hsp hmeta
    obtain ⟨gt, hgt⟩ := Option.isSome_iff_exists.mp hmeta
    unfold to__python_object
    rw [show alookup (("graph_metadata", SEntry.json meta) :: (k, e) :: rest)
        "graph_metadata" = some (SEntry.json meta) from by simp [alookup]]
    dsimp only
    rw [hgt]
    dsimp only
    rw [show deserLoop M fs (("graph_metadata", SEntry.json meta) :: (k, e) :: rest) [] =
        .error (invalidKeyMsg M k) from by
      simp only [deserLoop]
      rw [show deserStep M fs "graph_metadata" (SEntry.json meta) ([] : TMap α) =
          .ok [] from by simp [deserStep]]
      dsimp only
      rw [show deserStep M fs k e ([] : TMap α) = .error (invalidKeyMsg M k) from by
        unfold deserStep
        rw [if_neg hk, hsp]]]
  · intro meta k tc fl rest fs hk hsp hfl hmeta
    obtain ⟨gt, hgt⟩ := Option.isSome_iff_exists.mp hmeta
    unfold to__python_object
    rw [show alookup (("graph_metadata", SEntry.json meta) :: (k, SEntry.files fl) :: rest)
        "graph_metadata" = some (SEntry.json meta) from by simp [alookup]]
    dsimp only
    rw [hgt]
    dsimp only
    rw [show deserLoop M fs
        (("graph_metadata", SEntry.json meta) :: (k, SEntry.files fl) :: rest) [] =
        .error "AssertionError: chunks.get_number_of_chunks() == 1" from by
      simp only [deserLoop]
      rw [show deserStep M fs "graph_metadata" (SEntry.json meta) ([] : TMap α) =
          .ok [] from by simp [deserStep]]
      dsimp only
      rw [show deserStep M fs k (SEntry.files fl) ([] : TMap α) =
          .error "AssertionError: chunks.get_number_of_chunks() == 1" from by
        unfold deserStep
        rw [if_neg hk, hsp]
        dsimp only
        rw [if_neg (show ¬ chunkCount (SEntry.files fl) = 1 from hfl)]]]

/-- Closed witness for `claim_C8_deserialize_errors`: the no-skip guarantee
applied to a concrete successful run, the markerless-key failure at the key
`"nomarker"`, and the multi-chunk failure at a two-chunk column, with the
marker `"__"`. -/
theorem claim_C8_deserialize_errors_witness :
    ((splitFirst "__".data ("edges__s" : String).data).isSome = true ∧
      chunkCount (SEntry.files ["/t/s"]) = 1) ∧
    (to__python_object "__".data
        [("graph_metadata", SEntry.json ⟨"directed", "s", "t", "n"⟩),
         ("nomarker", SEntry.files ["/t/x"])] ([] : FS String) =
      .error (invalidKeyMsg "__".data "nomarker")) ∧
    (to__python_object "__".data
        [("graph_metadata", SEntry.json ⟨"directed", "s", "t", "n"⟩),
         ("edges__s", SEntry.files ["/t/s", "/t/s2"])] ([] : FS String) =
      .error "AssertionError: chunks.get_number_of_chunks() == 1") := by
  refine ⟨?_, ?_, ?_⟩
  · exact (claim_C8_deserialize_errors "__".data).1
      [("graph_metadata", SEntry.json ⟨"directed", "s", "t", "n"⟩),
       ("edges__s", SEntry.files ["/t/s"]),
       ("edges__t", SEntry.files ["/t/t"]),
       ("nodes__n", SEntry.files ["/t/n"])]
      [("/t/s", ("s", ["a"])), ("/t/t", ("t", ["b"])), ("/t/n", ("n", ["a", "b"]))]
      ⟨"directed", "s", "t", "n",
       ⟨[("s", ["a"]), ("t", ["b"])]⟩, ⟨[("n", ["a", "b"])]⟩⟩
      rfl ("edges__s", SEntry.files ["/t/s"]) (by decide) (by decide)
  · exact (claim_C8_deserialize_errors "__".data).2.1 ⟨"directed", "s", "t", "n"⟩
      "nomarker" (SEntry.files ["/t/x"]) [] [] (by decide) (by decide) (by decide)
  · exact (claim_C8_deserialize_errors "__".data).2.2 ⟨"directed", "s", "t", "n"⟩
      "edges__s" ("edges".data, "s".data) ["/t/s", "/t/s2"] [] [] (by decide)
      (by decide) (by decide) (by decide)

end Tropy

